import Mathlib

/-!
Verification development for the interaction/event-coordination subsystem of
the komplot plotting convenience layer (AxesState, AxesEventManager,
LinkGroup, FigureEventManager).  The repository distribution at hand ships
only the package metadata and the usage examples; the Python module
implementing the subsystem is not included, so every definition below is
modelled from the design specification, as indicated by its doc comment.
-/

set_option autoImplicit false

namespace Komplot

/-- Modelled from the spec: error taxonomy of §7 (the Python module defining
these exception classes is missing from the distribution).
`IncompatibleAxesError` names the first mismatching pair of axes. -/
inductive KErr where
  | OutOfRangeError
  | UnknownColormapError
  | IncompatibleAxesError (a b : Nat)
  | UnregisteredAxesError (a : Nat)
  | MalformedEventError
  deriving DecidableEq, Repr

/-- Modelled from the spec: current view bounds of one axes (`zoom_rect`).
Coordinate values are rationals standing in for the host library's floats. -/
structure ZoomRect where
  x0 : Rat
  y0 : Rat
  x1 : Rat
  y1 : Rat
  deriving DecidableEq, Repr

/-- Modelled from the spec: the volumetric artifact information an axes
exposes (the volumetric array's extents and which dimension is scrubbed). -/
structure VolumeInfo where
  shape : List Nat
  slice_axis : Nat
  deriving DecidableEq, Repr

/-- Extent of the volume along the designated slice axis. -/
def VolumeInfo.extent (v : VolumeInfo) : Nat :=
  v.shape.getD v.slice_axis 0

/-- Modelled from the spec: `AxesState`, the per-axes interactive state
holder of §3/§4.1 (missing from the distribution).  `slice_index` is present
exactly when the axes holds a volumetric artifact. -/
structure AxesState where
  axes_id : Nat
  volume : Option VolumeInfo
  slice_index : Option Nat
  colormap_name : String
  zoom_rect : ZoomRect
  deriving DecidableEq, Repr

/-- Modelled from the spec: the fixed ordered palette list through which
recognized keys cycle the colormap (§4.2); the concrete entries stand in for
the registry of the underlying library. -/
def palette : List String :=
  ["gray", "viridis", "plasma", "coolwarm", "jet"]

/-- Modelled from the spec: `AxesState.set_slice_index` (§4.1): clamps or
fails with `OutOfRangeError` if `i` is outside `[0, extent-1]`; the boolean
policy argument selects clamp-vs-fail, and clamping stops at the bounds
(wraparound disabled). -/
def AxesState.set_slice_index (s : AxesState) (clamp : Bool) (i : Int) :
    Except KErr AxesState :=
  match s.volume with
  | none => Except.error KErr.OutOfRangeError
  | some v =>
    if 0 ≤ i ∧ i < (v.extent : Int) then
      Except.ok { s with slice_index := some i.toNat }
    else if clamp then
      Except.ok { s with slice_index := some (Nat.min (v.extent - 1) i.toNat) }
    else
      Except.error KErr.OutOfRangeError

/-- Modelled from the spec: `AxesState.set_colormap` (§4.1): fails with
`UnknownColormapError` when the name is not in the colormap registry. -/
def AxesState.set_colormap (s : AxesState) (name : String) :
    Except KErr AxesState :=
  if name ∈ palette then Except.ok { s with colormap_name := name }
  else Except.error KErr.UnknownColormapError

/-- Modelled from the spec: observable state of the renderable artifact owned
by one axes (displayed slice data, displayed colormap, displayed axis limits),
together with counters of how many data-update operations were issued to it. -/
structure Artifact where
  displayed_slice : Option Nat
  displayed_cmap : String
  displayed_zoom : ZoomRect
  slice_data_updates : Nat
  cmap_updates : Nat
  zoom_updates : Nat
  deriving DecidableEq, Repr

/-- Modelled from the spec: `AxesEventManager` (§4.2, missing from the
distribution): owns one `AxesState` and the artifact it refreshes.  The
stale flags record which parts of the state have changed since the last
`refresh`, making `refresh` idempotent and cheap when nothing changed. -/
structure AxesEventManager where
  state : AxesState
  artifact : Artifact
  slice_stale : Bool
  cmap_stale : Bool
  zoom_stale : Bool
  scroll_step : Nat
  deriving DecidableEq, Repr

/-- Modelled from the spec: `refresh()` (§4.2): applies the current
`AxesState` to the owned artifact (displayed slice data, colormap, axis
limits) and clears the stale flags; idempotent. -/
def AxesEventManager.refresh (m : AxesEventManager) : AxesEventManager :=
  let a0 := m.artifact
  let a1 := if m.slice_stale then
      { a0 with displayed_slice := m.state.slice_index,
                slice_data_updates := a0.slice_data_updates + 1 }
    else a0
  let a2 := if m.cmap_stale then
      { a1 with displayed_cmap := m.state.colormap_name,
                cmap_updates := a1.cmap_updates + 1 }
    else a1
  let a3 := if m.zoom_stale then
      { a2 with displayed_zoom := m.state.zoom_rect,
                zoom_updates := a2.zoom_updates + 1 }
    else a2
  { m with artifact := a3,
           slice_stale := false, cmap_stale := false, zoom_stale := false }

/-- Modelled from the spec: `set_volume_slice(i)` (§4.2): public entry point;
validates (strict policy, per §7 explicit API calls always raise) and
forwards to `AxesState.set_slice_index`, then calls `refresh()`. -/
def AxesEventManager.set_volume_slice (m : AxesEventManager) (i : Int) :
    Except KErr AxesEventManager :=
  match m.state.set_slice_index false i with
  | Except.error e => Except.error e
  | Except.ok s2 =>
    Except.ok ({ m with state := s2, slice_stale := true }).refresh

/-- Modelled from the spec: the default zoom scale factor (1.1 per notch). -/
def zoomScaleFactor : Rat := 11 / 10

/-- Modelled from the spec: recompute the view bounds around the cursor
position by a given scale factor. -/
def zoomAround (r : ZoomRect) (cx cy s : Rat) : ZoomRect :=
  { x0 := cx + s * (r.x0 - cx), y0 := cy + s * (r.y0 - cy),
    x1 := cx + s * (r.x1 - cx), y1 := cy + s * (r.y1 - cy) }

/-- Modelled from the spec: `handle_scroll(direction, modifiers)` (§4.2): on
a volumetric axes with no zoom modifier, advances the slice index by the
configured step per notch, clamped at the bounds, and refreshes; otherwise
zooms around the cursor by the fixed scale factor and refreshes. -/
def AxesEventManager.handle_scroll (m : AxesEventManager) (dir : Int)
    (zoomMod : Bool) (cx cy : Rat) : AxesEventManager :=
  match m.state.volume, zoomMod with
  | some v, false =>
    let cur : Int := (m.state.slice_index.getD 0 : Nat)
    let tgt : Int := cur + dir * (m.scroll_step : Int)
    let newIdx : Nat := Nat.min (v.extent - 1) tgt.toNat
    ({ m with state := { m.state with slice_index := some newIdx },
              slice_stale := true }).refresh
  | _, _ =>
    let s : Rat := if 0 < dir then 10 / 11 else zoomScaleFactor
    ({ m with state :=
         { m.state with zoom_rect := zoomAround m.state.zoom_rect cx cy s },
              zoom_stale := true }).refresh

/-- Modelled from the spec: the key that cycles the colormap forward. -/
def cmapNextKey : String := "right"

/-- Modelled from the spec: the key that cycles the colormap backward. -/
def cmapPrevKey : String := "left"

/-- Modelled from the spec: the colormap following `name` in the fixed
ordered palette list, wrapping around at the end. -/
def nextColormap (name : String) : String :=
  palette.getD ((palette.indexOf name + 1) % palette.length) name

/-- Modelled from the spec: the colormap preceding `name` in the fixed
ordered palette list, wrapping around at the start. -/
def prevColormap (name : String) : String :=
  palette.getD ((palette.indexOf name + (palette.length - 1)) % palette.length) name

/-- Modelled from the spec: `handle_keypress(key)` (§4.2): recognized keys
cycle the colormap forward/backward through the palette and refresh;
unrecognized keys are ignored without error. -/
def AxesEventManager.handle_keypress (m : AxesEventManager) (key : String) :
    AxesEventManager :=
  if key = cmapNextKey then
    ({ m with state :=
         { m.state with colormap_name := nextColormap m.state.colormap_name },
              cmap_stale := true }).refresh
  else if key = cmapPrevKey then
    ({ m with state :=
         { m.state with colormap_name := prevColormap m.state.colormap_name },
              cmap_stale := true }).refresh
  else m

/-- Modelled from the spec: the logical event a state change applied, the
unit of propagation across a link group (§4.3).  The slice index is shared
verbatim; the zoom rect is shared as absolute bounds (the default of the
configurable policy left open in §9). -/
inductive LogicalEvent where
  | sliceSet (i : Nat)
  | cmapSet (name : String)
  | zoomSet (r : ZoomRect)
  deriving DecidableEq, Repr

/-- Modelled from the spec: application of a propagated logical change to one
member manager's state (§4.3); the subsequent `refresh` is triggered by
`LinkGroup.propagate`. -/
def AxesEventManager.applyEvent (m : AxesEventManager) :
    LogicalEvent → AxesEventManager
  | LogicalEvent.sliceSet i =>
    match m.state.volume with
    | some v =>
      { m with state := { m.state with slice_index := some (Nat.min (v.extent - 1) i) },
               slice_stale := true }
    | none => m
  | LogicalEvent.cmapSet n =>
    { m with state := { m.state with colormap_name := n }, cmap_stale := true }
  | LogicalEvent.zoomSet r =>
    { m with state := { m.state with zoom_rect := r }, zoom_stale := true }

/-- Modelled from the spec: the interaction kinds a `LinkGroup` coordinates. -/
inductive LinkKind where
  | slice
  | colormap
  | zoom
  deriving DecidableEq, Repr

/-- Modelled from the spec: `LinkGroup` (§3/§4.3, missing from the
distribution): a named interaction kind plus the ordered member axes. -/
structure LinkGroup where
  kind : LinkKind
  members : List Nat
  deriving DecidableEq, Repr

/-- Lookup of the manager registered for an axes handle. -/
def findMgr : List (Nat × AxesEventManager) → Nat → Option AxesEventManager
  | [], _ => none
  | (k, m) :: rest, a => if k = a then some m else findMgr rest a

/-- Replacement of the manager registered for an axes handle. -/
def updateMgr (a : Nat) (m : AxesEventManager) :
    List (Nat × AxesEventManager) → List (Nat × AxesEventManager)
  | [] => []
  | (k, m0) :: rest =>
    if k = a then (k, m) :: rest else (k, m0) :: updateMgr a m rest

/-- Modelled from the spec: `FigureEventManager` (§4.4, missing from the
distribution): the axes-handle → `AxesEventManager` mapping, the registered
`LinkGroup`s, and the `error` construction flag of the error-tolerant mode. -/
structure FigureEventManager where
  axevmans : List (Nat × AxesEventManager)
  groups : List LinkGroup
  error : Bool
  deriving DecidableEq, Repr

/-- Modelled from the spec: the `figure_event_manager(figure, error=<bool>)`
constructor, starting with no link groups. -/
def figure_event_manager (axevmans : List (Nat × AxesEventManager))
    (error : Bool) : FigureEventManager :=
  { axevmans := axevmans, groups := [], error := error }

/-- Modelled from the spec: `get_axevman_for_axes(axes)` (§4.4): the
registered manager, or `UnregisteredAxesError` for a non-interactive axes. -/
def FigureEventManager.get_axevman_for_axes (fem : FigureEventManager)
    (a : Nat) : Except KErr AxesEventManager :=
  match findMgr fem.axevmans a with
  | some m => Except.ok m
  | none => Except.error (KErr.UnregisteredAxesError a)

/-- Modelled from the spec: apply a propagated logical change to the member
registered at one axes handle, then trigger that member's `refresh()`. -/
def applySharedTo (ev : LogicalEvent) (fem : FigureEventManager) (a : Nat) :
    FigureEventManager :=
  match findMgr fem.axevmans a with
  | none => fem
  | some m =>
    { fem with axevmans := updateMgr a ((m.applyEvent ev).refresh) fem.axevmans }

/-- Modelled from the spec: `LinkGroup.propagate(origin_manager, event)`
(§4.3): applies the logical change to every member other than the origin, in
the group's registration order, refreshing each; the origin is excluded. -/
def LinkGroup.propagate (g : LinkGroup) (origin : Nat) (ev : LogicalEvent)
    (fem : FigureEventManager) : FigureEventManager :=
  g.members.foldl (fun f a => if a = origin then f else applySharedTo ev f a) fem

/-- Modelled from the spec: after the origin manager has been updated and
refreshed, every registered group of the matching kind containing the origin
axes propagates the logical event (§4.4 event dispatch, §5 ordering). -/
def FigureEventManager.propagateGroups (fem : FigureEventManager)
    (kind : LinkKind) (origin : Nat) (ev : LogicalEvent) : FigureEventManager :=
  fem.groups.foldl
    (fun f g => if g.kind = kind ∧ origin ∈ g.members then g.propagate origin ev f else f)
    fem

/-- Modelled from the spec: compatibility validation for "slice" groups
(§4.3): every member must be registered and hold a volumetric artifact whose
extent along its designated slice axis equals that of the first member;
the error names the first mismatching pair. -/
def checkSliceCompat (fem : FigureEventManager) (first e0 : Nat) :
    List Nat → Except KErr Unit
  | [] => Except.ok ()
  | a :: rest =>
    match findMgr fem.axevmans a with
    | none => Except.error (KErr.UnregisteredAxesError a)
    | some m =>
      match m.state.volume with
      | none => Except.error (KErr.IncompatibleAxesError first a)
      | some v =>
        if v.extent = e0 then checkSliceCompat fem first e0 rest
        else Except.error (KErr.IncompatibleAxesError first a)

/-- Modelled from the spec: `set_slice_share(axes_list)` (§4.4): validates
compatibility as in §4.3 and registers one "slice" `LinkGroup`, all-or-nothing. -/
def FigureEventManager.set_slice_share (fem : FigureEventManager)
    (axes : List Nat) : Except KErr FigureEventManager :=
  match axes with
  | [] => Except.ok { fem with groups := fem.groups ++ [⟨LinkKind.slice, []⟩] }
  | a :: rest =>
    match findMgr fem.axevmans a with
    | none => Except.error (KErr.UnregisteredAxesError a)
    | some m =>
      match m.state.volume with
      | none => Except.error (KErr.IncompatibleAxesError a a)
      | some v =>
        match checkSliceCompat fem a v.extent rest with
        | Except.error e => Except.error e
        | Except.ok _ =>
          Except.ok { fem with groups := fem.groups ++ [⟨LinkKind.slice, axes⟩] }

/-- Modelled from the spec: registration check shared by the colormap and
zoom group constructors. -/
def checkRegistered (fem : FigureEventManager) : List Nat → Except KErr Unit
  | [] => Except.ok ()
  | a :: rest =>
    match findMgr fem.axevmans a with
    | none => Except.error (KErr.UnregisteredAxesError a)
    | some _ => checkRegistered fem rest

/-- Modelled from the spec: `set_cmap_share(axes_list)` (§4.4). -/
def FigureEventManager.set_cmap_share (fem : FigureEventManager)
    (axes : List Nat) : Except KErr FigureEventManager :=
  match checkRegistered fem axes with
  | Except.error e => Except.error e
  | Except.ok _ =>
    Except.ok { fem with groups := fem.groups ++ [⟨LinkKind.colormap, axes⟩] }

/-- Modelled from the spec: `set_zoom_share(axes_list)` (§4.4). -/
def FigureEventManager.set_zoom_share (fem : FigureEventManager)
    (axes : List Nat) : Except KErr FigureEventManager :=
  match checkRegistered fem axes with
  | Except.error e => Except.error e
  | Except.ok _ =>
    Except.ok { fem with groups := fem.groups ++ [⟨LinkKind.zoom, axes⟩] }

/-- Modelled from the spec: the explicit-API slice change through the figure
manager: the origin axes' `set_volume_slice` runs (validated, raising
synchronously), the origin is updated and refreshed first, and then every
"slice" group containing the origin propagates the new index verbatim. -/
def FigureEventManager.axes_set_volume_slice (fem : FigureEventManager)
    (a : Nat) (i : Int) : Except KErr FigureEventManager :=
  match findMgr fem.axevmans a with
  | none => Except.error (KErr.UnregisteredAxesError a)
  | some m =>
    match m.set_volume_slice i with
    | Except.error e => Except.error e
    | Except.ok m2 =>
      let fem1 := { fem with axevmans := updateMgr a m2 fem.axevmans }
      Except.ok (fem1.propagateGroups LinkKind.slice a
        (LogicalEvent.sliceSet (m2.state.slice_index.getD 0)))

/-- Modelled from the spec: a raw input event delivered by the host plotting
library, as a closed tagged variant (§9); `malformed` is an event whose
target axes cannot be resolved. -/
inductive RawEvent where
  | scroll (axes : Nat) (dir : Int) (zoomMod : Bool) (cx cy : Rat)
  | keypress (axes : Nat) (key : String)
  | malformed
  deriving DecidableEq, Repr

/-- Modelled from the spec: raw-event dispatch (§4.4): determine the target
axes, look up the owning manager, invoke the matching handler, then
propagate through each matching group containing that axes. -/
def FigureEventManager.dispatch_raw (fem : FigureEventManager) :
    RawEvent → Except KErr FigureEventManager
  | RawEvent.malformed => Except.error KErr.MalformedEventError
  | RawEvent.scroll a dir zm cx cy =>
    match findMgr fem.axevmans a with
    | none => Except.error (KErr.UnregisteredAxesError a)
    | some m =>
      let m2 := m.handle_scroll dir zm cx cy
      let fem1 := { fem with axevmans := updateMgr a m2 fem.axevmans }
      match m.state.volume, zm with
      | some _, false =>
        Except.ok (fem1.propagateGroups LinkKind.slice a
          (LogicalEvent.sliceSet (m2.state.slice_index.getD 0)))
      | _, _ =>
        Except.ok (fem1.propagateGroups LinkKind.zoom a
          (LogicalEvent.zoomSet m2.state.zoom_rect))
  | RawEvent.keypress a key =>
    match findMgr fem.axevmans a with
    | none => Except.error (KErr.UnregisteredAxesError a)
    | some m =>
      let m2 := m.handle_keypress key
      let fem1 := { fem with axevmans := updateMgr a m2 fem.axevmans }
      Except.ok (fem1.propagateGroups LinkKind.colormap a
        (LogicalEvent.cmapSet m2.state.colormap_name))

/-- Modelled from the spec: the error-tolerant mode wrapper (§4.4/§7): with
`error = true` dispatch exceptions are raised to the caller; with
`error = false` the failed event is dropped and the state left unchanged. -/
def FigureEventManager.process (fem : FigureEventManager) (ev : RawEvent) :
    Except KErr FigureEventManager :=
  if fem.error then fem.dispatch_raw ev
  else
    match fem.dispatch_raw ev with
    | Except.ok f => Except.ok f
    | Except.error _ => Except.ok fem

/-- The §3 data invariant: `slice_index` ∈ [0, extent-1] whenever the axes
holds a volumetric artifact, and absent otherwise. -/
def AxesState.invOk (s : AxesState) : Bool :=
  match s.volume, s.slice_index with
  | some v, some k => k < v.extent
  | none, none => true
  | _, _ => false

/-- An operation of the per-axes subsystem, used to state invariant
preservation uniformly over setters, event handlers and propagation. -/
inductive MOp where
  | scroll (dir : Int) (zoomMod : Bool) (cx cy : Rat)
  | keypress (key : String)
  | setVolumeSlice (i : Int)
  | doRefresh
  | applyShared (ev : LogicalEvent)
  deriving DecidableEq, Repr

/-- Total application of one subsystem operation to a manager; a failing
`set_volume_slice` leaves the manager unchanged. -/
def AxesEventManager.applyOp (m : AxesEventManager) : MOp → AxesEventManager
  | MOp.scroll dir zm cx cy => m.handle_scroll dir zm cx cy
  | MOp.keypress key => m.handle_keypress key
  | MOp.setVolumeSlice i =>
    match m.set_volume_slice i with
    | Except.ok m2 => m2
    | Except.error _ => m
  | MOp.doRefresh => m.refresh
  | MOp.applyShared ev => (m.applyEvent ev).refresh

/-- A concrete volumetric artifact description used by the witnesses,
matching the example notebook's stent volume sliced along axis 2. -/
def volW : VolumeInfo := ⟨[256, 128, 128], 2⟩

/-- A concrete artifact used by the witnesses. -/
def artW : Artifact := ⟨some 0, "viridis", ⟨0, 0, 1, 1⟩, 0, 0, 0⟩

/-- A concrete volumetric axes manager used by the witnesses. -/
def mgrW : AxesEventManager :=
  ⟨⟨0, some volW, some 0, "viridis", ⟨0, 0, 1, 1⟩⟩, artW, false, false, false, 1⟩

/-- A second concrete manager (same volume sliced along axis 1, equal
extent 128), as in the notebook's two-subplot slice-share example. -/
def mgrW2 : AxesEventManager :=
  ⟨⟨1, some ⟨[256, 128, 128], 1⟩, some 5, "viridis", ⟨0, 0, 1, 1⟩⟩, artW,
   false, false, false, 1⟩

/-- A concrete manager holding a volume of extent 40 along its slice axis. -/
def mgrW3 : AxesEventManager :=
  ⟨⟨2, some ⟨[40, 50, 60], 0⟩, some 0, "viridis", ⟨0, 0, 1, 1⟩⟩, artW,
   false, false, false, 1⟩

theorem refresh_state (m : AxesEventManager) : m.refresh.state = m.state := rfl

theorem refresh_refresh (m : AxesEventManager) : m.refresh.refresh = m.refresh := by
  cases m with
  | mk st art ss cs zs step =>
    simp [AxesEventManager.refresh]

theorem findMgr_updateMgr_ne (a b : Nat) (m : AxesEventManager)
    (l : List (Nat × AxesEventManager)) (h : b ≠ a) :
    findMgr (updateMgr a m l) b = findMgr l b := by
  induction l with
  | nil => rfl
  | cons p rest ih =>
    obtain ⟨k, m0⟩ := p
    by_cases hk : k = a
    · subst hk
      have hkb : ¬ k = b := fun hh => h hh.symm
      simp [updateMgr, findMgr, hkb]
    · simp [updateMgr, findMgr, hk, ih]

theorem findMgr_applySharedTo_ne (ev : LogicalEvent) (fem : FigureEventManager)
    (a o : Nat) (h : o ≠ a) :
    findMgr (applySharedTo ev fem a).axevmans o = findMgr fem.axevmans o := by
  unfold applySharedTo
  cases hf : findMgr fem.axevmans a with
  | none => rfl
  | some m => simp [findMgr_updateMgr_ne _ _ _ _ h]

theorem propagate_foldl_preserves_origin (origin : Nat) (ev : LogicalEvent) :
    ∀ (l : List Nat) (fem : FigureEventManager),
      findMgr ((l.foldl
        (fun f a => if a = origin then f else applySharedTo ev f a) fem).axevmans)
        origin = findMgr fem.axevmans origin := by
  intro l
  induction l with
  | nil => intro fem; rfl
  | cons a rest ih =>
    intro fem
    by_cases ha : a = origin
    · simp [List.foldl_cons, ha, ih]
    · simp only [List.foldl_cons, if_neg ha]
      rw [ih, findMgr_applySharedTo_ne]
      intro hh; exact ha hh.symm

/-- C9: `LinkGroup.propagate` applies the logical change only to members
other than the origin manager: the origin's registered manager (hence its
`AxesState`) is never re-applied during propagation, so propagation cannot
loop back to the origin. -/
theorem propagate_excludes_origin (g : LinkGroup) (origin : Nat)
    (ev : LogicalEvent) (fem : FigureEventManager) :
    findMgr ((g.propagate origin ev fem).axevmans) origin =
      findMgr fem.axevmans origin := by
  unfold LinkGroup.propagate
  exact propagate_foldl_preserves_origin origin ev g.members fem

/-- C6: `refresh()` is idempotent: calling it twice consecutively with no
intervening state change produces a manager (state and artifact included)
identical to calling it once, so there is no accumulated drift. -/
theorem refresh_idempotent (m : AxesEventManager) :
    m.refresh.refresh = m.refresh :=
  refresh_refresh m

/-- C1: for every slice index `i` in `[0, extent-1]` on an axes holding
volumetric data, `set_volume_slice i` succeeds, and after the subsequent
`refresh()` the state's `slice_index` equals `i` and exactly one
artifact-data update was triggered. -/
theorem set_volume_slice_then_refresh (m : AxesEventManager) (v : VolumeInfo)
    (i : Nat) (hv : m.state.volume = some v) (hi : i < v.extent) :
    ∃ m1, m.set_volume_slice (i : Int) = Except.ok m1 ∧
      m1.refresh.state.slice_index = some i ∧
      m1.refresh.artifact.slice_data_updates = m.artifact.slice_data_updates + 1 := by
  have hc : 0 ≤ (i : Int) ∧ (i : Int) < (v.extent : Int) :=
    ⟨Int.ofNat_nonneg i, by exact_mod_cast hi⟩
  refine ⟨({ m with
      state := { m.state with slice_index := some (Int.toNat (i : Int)) },
      slice_stale := true }).refresh, ?_, ?_, ?_⟩
  · simp only [AxesEventManager.set_volume_slice, AxesState.set_slice_index, hv,
      if_pos hc]
  · rw [refresh_refresh, refresh_state]
    simp
  · rw [refresh_refresh]
    cases m with
    | mk st art ss cs zs step =>
      cases cs <;> cases zs <;> simp [AxesEventManager.refresh]

/-- Witness for C1: on the concrete manager `mgrW` (extent 128), setting
slice 100 and refreshing yields slice index 100 and one data update. -/
theorem set_volume_slice_then_refresh_witness :
    ∃ m1, mgrW.set_volume_slice ((100 : Nat) : Int) = Except.ok m1 ∧
      m1.refresh.state.slice_index = some 100 ∧
      m1.refresh.artifact.slice_data_updates = mgrW.artifact.slice_data_updates + 1 :=
  set_volume_slice_then_refresh mgrW volW 100 rfl (by decide)

/-- C2: for every integer `i` outside `[0, extent-1]`, `set_volume_slice i`
fails with `OutOfRangeError`; the failure leaves the manager unchanged (and,
being pure validation, is repeatable). -/
theorem set_volume_slice_out_of_range (m : AxesEventManager) (v : VolumeInfo)
    (i : Int) (hv : m.state.volume = some v)
    (hi : i < 0 ∨ (v.extent : Int) ≤ i) :
    m.set_volume_slice i = Except.error KErr.OutOfRangeError ∧
    m.applyOp (MOp.setVolumeSlice i) = m := by
  have hc : ¬ (0 ≤ i ∧ i < (v.extent : Int)) := by omega
  have h1 : m.set_volume_slice i = Except.error KErr.OutOfRangeError := by
    simp only [AxesEventManager.set_volume_slice, AxesState.set_slice_index, hv,
      if_neg hc]
    simp
  exact ⟨h1, by simp [AxesEventManager.applyOp, h1]⟩

/-- Witness for C2: on `mgrW` (extent 128), index 200 is rejected with
`OutOfRangeError` and the manager is unchanged. -/
theorem set_volume_slice_out_of_range_witness :
    mgrW.set_volume_slice 200 = Except.error KErr.OutOfRangeError ∧
    mgrW.applyOp (MOp.setVolumeSlice 200) = mgrW :=
  set_volume_slice_out_of_range mgrW volW 200 rfl (by decide)

/-- C5: every operation of the subsystem (scroll and keypress handlers,
`set_volume_slice`, `refresh`, propagation application) preserves the data
invariant: `slice_index` ∈ [0, extent-1] when the axes holds a volumetric
artifact, and absent otherwise. -/
theorem min_pred_lt (e x : Nat) (he : 0 < e) : Nat.min (e - 1) x < e := by
  have h : Nat.min (e - 1) x = min (e - 1) x := rfl
  rw [h]
  omega

theorem invOk_of (s : AxesState) (v : VolumeInfo) (k : Nat)
    (hv : s.volume = some v) (hk2 : s.slice_index = some k)
    (h : k < v.extent) : s.invOk = true := by
  simp [AxesState.invOk, hv, hk2, h]

theorem applyOp_preserves_invariant (m : AxesEventManager) (op : MOp)
    (h : m.state.invOk = true) : (m.applyOp op).state.invOk = true := by
  cases hvol : m.state.volume with
  | none =>
    cases hidx : m.state.slice_index with
    | some k => simp [AxesState.invOk, hvol, hidx] at h
    | none =>
      cases op with
      | scroll dir zm cx cy =>
        simp [AxesEventManager.applyOp, AxesEventManager.handle_scroll, hvol,
          refresh_state, AxesState.invOk, hidx]
      | keypress key =>
        simp only [AxesEventManager.applyOp, AxesEventManager.handle_keypress]
        split
        · simp [refresh_state, AxesState.invOk, hvol, hidx]
        · split
          · simp [refresh_state, AxesState.invOk, hvol, hidx]
          · simp [AxesState.invOk, hvol, hidx]
      | setVolumeSlice i =>
        simp [AxesEventManager.applyOp, AxesEventManager.set_volume_slice,
          AxesState.set_slice_index, hvol, AxesState.invOk, hidx]
      | doRefresh => simp [AxesEventManager.applyOp, refresh_state,
          AxesState.invOk, hvol, hidx]
      | applyShared ev =>
        cases ev <;>
          simp [AxesEventManager.applyOp, AxesEventManager.applyEvent, hvol,
            refresh_state, AxesState.invOk, hidx]
  | some v =>
    cases hidx : m.state.slice_index with
    | none => simp [AxesState.invOk, hvol, hidx] at h
    | some k =>
      have hk : k < v.extent := by
        simpa [AxesState.invOk, hvol, hidx] using h
      have hpos : 0 < v.extent := by omega
      cases op with
      | scroll dir zm cx cy =>
        cases zm with
        | false =>
          simp only [AxesEventManager.applyOp, AxesEventManager.handle_scroll,
            hvol, refresh_state]
          exact invOk_of _ v _ rfl rfl (min_pred_lt _ _ hpos)
        | true =>
          simp [AxesEventManager.applyOp, AxesEventManager.handle_scroll, hvol,
            refresh_state, AxesState.invOk, hidx, hk]
      | keypress key =>
        simp only [AxesEventManager.applyOp, AxesEventManager.handle_keypress]
        split
        · simp [refresh_state, AxesState.invOk, hvol, hidx, hk]
        · split
          · simp [refresh_state, AxesState.invOk, hvol, hidx, hk]
          · simp [AxesState.invOk, hvol, hidx, hk]
      | setVolumeSlice i =>
        simp only [AxesEventManager.applyOp, AxesEventManager.set_volume_slice,
          AxesState.set_slice_index, hvol]
        by_cases hc2 : 0 ≤ i ∧ i < (v.extent : Int)
        · rw [if_pos hc2]
          exact invOk_of _ v _ rfl rfl (by omega)
        · rw [if_neg hc2]
          exact h
      | doRefresh => simp [AxesEventManager.applyOp, refresh_state,
          AxesState.invOk, hvol, hidx, hk]
      | applyShared ev =>
        cases ev with
        | sliceSet j =>
          simp only [AxesEventManager.applyOp, AxesEventManager.applyEvent,
            hvol, refresh_state]
          exact invOk_of _ v _ rfl rfl (min_pred_lt _ _ hpos)
        | cmapSet n =>
          simp [AxesEventManager.applyOp, AxesEventManager.applyEvent,
            refresh_state, AxesState.invOk, hvol, hidx, hk]
        | zoomSet r =>
          simp [AxesEventManager.applyOp, AxesEventManager.applyEvent,
            refresh_state, AxesState.invOk, hvol, hidx, hk]

/-- Witness for C5: the invariant holds for `mgrW` and is preserved by a
downward scroll at the lower bound. -/
theorem applyOp_preserves_invariant_witness :
    (mgrW.applyOp (MOp.scroll (-1) false 0 0)).state.invOk = true :=
  applyOp_preserves_invariant mgrW (MOp.scroll (-1) false 0 0) (by decide)

theorem handle_keypress_next_cmap (m : AxesEventManager) :
    (m.handle_keypress cmapNextKey).state.colormap_name =
      nextColormap m.state.colormap_name := by
  simp [AxesEventManager.handle_keypress, refresh_state]

theorem iterate_keypress_colormap (k : Nat) (m : AxesEventManager) :
    ((fun m : AxesEventManager => m.handle_keypress cmapNextKey)^[k] m).state.colormap_name =
      nextColormap^[k] m.state.colormap_name := by
  induction k generalizing m with
  | zero => rfl
  | succ n ih =>
    rw [Function.iterate_succ_apply, Function.iterate_succ_apply, ih,
      handle_keypress_next_cmap]

theorem nextColormap_cycle (x : String) (hx : x ∈ palette) :
    nextColormap^[palette.length] x = x := by
  simp only [palette, List.mem_cons, List.not_mem_nil, or_false] at hx
  rcases hx with rfl | rfl | rfl | rfl | rfl <;> decide

/-- C7: colormap cycling is cyclic: from any colormap of the fixed ordered
palette, applying the "next colormap" key event `N = palette.length` times
returns the state's colormap to its original value; unrecognized keys are
ignored without error and leave the manager unchanged. -/
theorem colormap_cycle_and_passthrough (m : AxesEventManager)
    (hmem : m.state.colormap_name ∈ palette) :
    ((fun m : AxesEventManager => m.handle_keypress cmapNextKey)^[palette.length] m).state.colormap_name
        = m.state.colormap_name ∧
      ∀ key, key ≠ cmapNextKey → key ≠ cmapPrevKey →
        m.handle_keypress key = m := by
  constructor
  · rw [iterate_keypress_colormap, nextColormap_cycle _ hmem]
  · intro key h1 h2
    simp [AxesEventManager.handle_keypress, h1, h2]

/-- Witness for C7: on the concrete manager `mgrW` (colormap "viridis"),
five "next colormap" key events return to "viridis" and the key "x" is
ignored. -/
theorem colormap_cycle_and_passthrough_witness :
    ((fun m : AxesEventManager => m.handle_keypress cmapNextKey)^[palette.length] mgrW).state.colormap_name
        = mgrW.state.colormap_name ∧
      ∀ key, key ≠ cmapNextKey → key ≠ cmapPrevKey →
        mgrW.handle_keypress key = mgrW :=
  colormap_cycle_and_passthrough mgrW (by decide)

/-- C8: with `error = false`, dispatching a malformed raw event raises no
error to the caller and returns the figure manager unchanged (the event is
dropped, so every subsequent event is processed exactly as before); with
`error = true` the dispatch error is raised to the caller. -/
theorem process_malformed_error_mode (fem : FigureEventManager) :
    (fem.error = false →
      fem.process RawEvent.malformed = Except.ok fem ∧
      ∀ ev2 : RawEvent,
        (match fem.process RawEvent.malformed with
         | Except.ok f => f.process ev2
         | Except.error e => Except.error e) = fem.process ev2) ∧
    (fem.error = true →
      fem.process RawEvent.malformed = Except.error KErr.MalformedEventError) := by
  constructor
  · intro h
    have h1 : fem.process RawEvent.malformed = Except.ok fem := by
      simp [FigureEventManager.process, FigureEventManager.dispatch_raw, h]
    exact ⟨h1, fun ev2 => by rw [h1]⟩
  · intro h
    simp [FigureEventManager.process, FigureEventManager.dispatch_raw, h]

/-- Witness for C8: a concrete two-axes figure manager in tolerant mode
drops the malformed event unchanged, and the same manager in strict mode
raises `MalformedEventError`. -/
theorem process_malformed_error_mode_witness :
    (figure_event_manager [(0, mgrW), (1, mgrW2)] false).process RawEvent.malformed
        = Except.ok (figure_event_manager [(0, mgrW), (1, mgrW2)] false) ∧
      (figure_event_manager [(0, mgrW), (1, mgrW2)] true).process RawEvent.malformed
        = Except.error KErr.MalformedEventError :=
  ⟨((process_malformed_error_mode
      (figure_event_manager [(0, mgrW), (1, mgrW2)] false)).1 rfl).1,
   (process_malformed_error_mode
      (figure_event_manager [(0, mgrW), (1, mgrW2)] true)).2 rfl⟩

set_option maxRecDepth 4096 in
/-- C3: for two axes `A`, `B` holding volumes of equal extent along their
slice axes, after `set_slice_share [A, B]` succeeds, the explicit slice
change on `A` propagates: `B`'s `slice_index` equals the new index and `B`'s
artifact has been refreshed to display it. -/
theorem slice_share_propagates (mA mB : AxesEventManager) (A B : Nat)
    (vA vB : VolumeInfo) (er : Bool) (i : Nat)
    (hAB : A ≠ B) (hvA : mA.state.volume = some vA)
    (hvB : mB.state.volume = some vB)
    (hext : vA.extent = vB.extent) (hi : i < vA.extent) :
    ∃ fem1 fem2 mB2,
      (figure_event_manager [(A, mA), (B, mB)] er).set_slice_share [A, B]
          = Except.ok fem1 ∧
      fem1.axes_set_volume_slice A (i : Int) = Except.ok fem2 ∧
      findMgr fem2.axevmans B = some mB2 ∧
      mB2.state.slice_index = some i ∧
      mB2.artifact.displayed_slice = some i := by
  have hc : 0 ≤ (i : Int) ∧ (i : Int) < (vA.extent : Int) :=
    ⟨Int.ofNat_nonneg i, by exact_mod_cast hi⟩
  have hiB : i < vB.extent := hext ▸ hi
  have hminB : Nat.min (vB.extent - 1) i = i := by
    have hmm : Nat.min (vB.extent - 1) i = min (vB.extent - 1) i := rfl
    rw [hmm]
    omega
  have hextBA : vB.extent = vA.extent := hext.symm
  refine ⟨⟨[(A, mA), (B, mB)], [⟨LinkKind.slice, [A, B]⟩], er⟩,
    ⟨[(A, ({ mA with
             state := { mA.state with slice_index := some i },
             slice_stale := true }).refresh),
      (B, ({ mB with
             state := { mB.state with slice_index := some i },
             slice_stale := true }).refresh)],
     [⟨LinkKind.slice, [A, B]⟩], er⟩,
    ({ mB with
       state := { mB.state with slice_index := some i },
       slice_stale := true }).refresh, ?_, ?_, ?_, ?_, ?_⟩
  · simp [FigureEventManager.set_slice_share, figure_event_manager, findMgr,
      checkSliceCompat, hvA, hvB, hAB, hextBA]
  · have hfindA : findMgr [(A, mA), (B, mB)] A = some mA := by
      simp [findMgr]
    have hA2 : mA.set_volume_slice (i : Int) = Except.ok (({ mA with
        state := { mA.state with slice_index := some i },
        slice_stale := true }).refresh) := by
      simp only [AxesEventManager.set_volume_slice, AxesState.set_slice_index,
        hvA, if_pos hc, Int.toNat_natCast]
    simp only [FigureEventManager.axes_set_volume_slice, hfindA, hA2]
    simp only [FigureEventManager.propagateGroups, LinkGroup.propagate,
      List.foldl_cons, List.foldl_nil]
    simp [applySharedTo, findMgr, updateMgr, AxesEventManager.applyEvent,
      refresh_state, hAB, Ne.symm hAB, hvB, hminB]
  · simp [findMgr, hAB, Ne.symm hAB]
  · simp [refresh_state]
  · obtain ⟨st, art, ss, cs, zs, step⟩ := mB
    cases cs <;> cases zs <;> simp [AxesEventManager.refresh]

/-- Witness for C3: with the notebook's two subplots over the stent volume
(extent 128 each), sharing slices and setting slice 30 on the first axes
leaves the second axes at slice 30, refreshed. -/
theorem slice_share_propagates_witness :
    ∃ fem1 fem2 mB2,
      (figure_event_manager [(0, mgrW), (1, mgrW2)] false).set_slice_share [0, 1]
          = Except.ok fem1 ∧
      fem1.axes_set_volume_slice 0 ((30 : Nat) : Int) = Except.ok fem2 ∧
      findMgr fem2.axevmans 1 = some mB2 ∧
      mB2.state.slice_index = some 30 ∧
      mB2.artifact.displayed_slice = some 30 :=
  slice_share_propagates mgrW mgrW2 0 1 volW ⟨[256, 128, 128], 1⟩ false 30
    (by decide) rfl rfl (by decide) (by decide)

/-- C4: for two axes whose volumetric extents along their slice axes differ,
`set_slice_share` fails with `IncompatibleAxesError` naming the pair and no
group is registered; a subsequent scroll dispatched on the first axes leaves
the second axes' manager untouched. -/
theorem set_slice_share_incompatible (mA mB : AxesEventManager) (A B : Nat)
    (vA vB : VolumeInfo) (er : Bool) (dir : Int) (cx cy : Rat)
    (hAB : A ≠ B) (hvA : mA.state.volume = some vA)
    (hvB : mB.state.volume = some vB)
    (hne : vA.extent ≠ vB.extent) :
    (figure_event_manager [(A, mA), (B, mB)] er).set_slice_share [A, B]
        = Except.error (KErr.IncompatibleAxesError A B) ∧
    ∃ f2, (figure_event_manager [(A, mA), (B, mB)] er).dispatch_raw
        (RawEvent.scroll A dir false cx cy) = Except.ok f2 ∧
      findMgr f2.axevmans B = some mB := by
  have hneBA : ¬ vB.extent = vA.extent := fun hh => hne hh.symm
  constructor
  · simp [FigureEventManager.set_slice_share, figure_event_manager, findMgr,
      checkSliceCompat, hvA, hvB, hAB, hneBA]
  · refine ⟨⟨[(A, mA.handle_scroll dir false cx cy), (B, mB)], [], er⟩, ?_, ?_⟩
    · simp [FigureEventManager.dispatch_raw, figure_event_manager, findMgr,
        updateMgr, hAB, hvA, FigureEventManager.propagateGroups]
    · simp [findMgr, hAB, Ne.symm hAB]

/-- Witness for C4: the notebook's extent-128 axes and an extent-40 axes are
rejected with `IncompatibleAxesError 0 2`, and a scroll on the first leaves
the second untouched. -/
theorem set_slice_share_incompatible_witness :
    (figure_event_manager [(0, mgrW), (2, mgrW3)] false).set_slice_share [0, 2]
        = Except.error (KErr.IncompatibleAxesError 0 2) ∧
    ∃ f2, (figure_event_manager [(0, mgrW), (2, mgrW3)] false).dispatch_raw
        (RawEvent.scroll 0 1 false 0 0) = Except.ok f2 ∧
      findMgr f2.axevmans 2 = some mgrW3 :=
  set_slice_share_incompatible mgrW mgrW3 0 2 volW ⟨[40, 50, 60], 0⟩ false 1 0 0
    (by decide) rfl rfl (by decide)

/-- C10: `set_slice_share` accepts and links axes that slice along
different volume dimensions whenever the extents along those respective
dimensions are equal: the compatibility predicate compares extents only,
never slice-axis identity. -/
theorem set_slice_share_compares_extents_only (mA mB : AxesEventManager)
    (A B : Nat) (vA vB : VolumeInfo) (er : Bool)
    (hAB : A ≠ B) (hvA : mA.state.volume = some vA)
    (hvB : mB.state.volume = some vB)
    (haxes : vA.slice_axis ≠ vB.slice_axis)
    (hext : vA.extent = vB.extent) :
    (figure_event_manager [(A, mA), (B, mB)] er).set_slice_share [A, B] =
      Except.ok { axevmans := [(A, mA), (B, mB)],
                  groups := [⟨LinkKind.slice, [A, B]⟩], error := er } := by
  have hextBA : vB.extent = vA.extent := hext.symm
  simp [FigureEventManager.set_slice_share, figure_event_manager, findMgr,
    checkSliceCompat, hvA, hvB, hAB, hextBA]

/-- Witness for C10: the notebook's two subplots slice the same stent
volume along axes 2 and 1 (extents both 128) and are accepted into one
slice group. -/
theorem set_slice_share_compares_extents_only_witness :
    (figure_event_manager [(0, mgrW), (1, mgrW2)] true).set_slice_share [0, 1] =
      Except.ok { axevmans := [(0, mgrW), (1, mgrW2)],
                  groups := [⟨LinkKind.slice, [0, 1]⟩], error := true } :=
  set_slice_share_compares_extents_only mgrW mgrW2 0 1 volW ⟨[256, 128, 128], 1⟩
    true (by decide) rfl rfl (by decide) (by decide)

end Komplot
